import Mathlib

/-!
Verification of the `shader_search_3` backend (models.py, repositories.py).

The Python code is shallowly embedded:
* pydantic model construction becomes `Except String`-valued validation
  functions (`TestCaseBase.validate`, `evolutionConfigBaseValidate`);
* the JSON-file repository becomes pure state passing over a `RawDoc α`
  value that models the parse outcome of the backing document
  (unparseable text, a parsed non-array root, or a parsed array of
  records); mutating operations return the result together with the
  post-state of the document;
* `str(uuid4())` is an external library call; it is modelled as an
  explicit `gen : String` (or `gen : Nat → String`) parameter, and the
  UUID library's freshness guarantee appears as a hypothesis where a
  claim relies on it;
* Python floats that the code merely copies and zero-pads (never does
  arithmetic on) are modelled as `Rat`.
-/

set_option autoImplicit false

/-! ## models.py — TestCaseBase -/

/-- One cell as received by `TestCaseBase.normalize_frames`: either a bare
scalar or a list/tuple of numbers (`isinstance(cell, (list, tuple))`). -/
inductive CellInput where
  | scalar (v : Rat)
  | vec (xs : List Rat)
deriving Repr, DecidableEq

/-- A raw frame as received by the validator: rows of cells. -/
abbrev RawFrame := List (List CellInput)

/-- A normalized cell: `List Rat` (intended length 4). -/
abbrev Cell := List Rat

/-- A normalized frame: rows of normalized cells. -/
abbrev Frame := List (List Cell)

/-- Per-cell branch of `normalize_frames`:
`vec = [float(x) for x in cell[:4]]; while len(vec) < 4: vec.append(0.0)`
for list/tuple cells, `[value, 0.0, 0.0, 0.0]` for scalar cells. -/
def normalizeCell : CellInput → Cell
  | .scalar v => [v, 0, 0, 0]
  | .vec xs => xs.take 4 ++ List.replicate (4 - (xs.take 4).length) 0

/-- `TestCaseBase.normalize_frames` (field validator, mode="before"):
raises when `frames` is empty, otherwise normalizes every cell of every
row of every frame. -/
def normalize_frames (frames : List RawFrame) : Except String (List Frame) :=
  if frames.isEmpty then
    .error "At least one frame is required"
  else
    .ok (frames.map fun frame => frame.map fun row => row.map normalizeCell)

/-- Inner loop of `ensure_dimensions_match`: each cell must have 4 values. -/
def checkCells : List Cell → Except String Unit
  | [] => .ok ()
  | c :: cs =>
      if c.length ≠ 4 then .error "Each cell must contain 4 values (RGBA)"
      else checkCells cs

/-- Row loop of `ensure_dimensions_match`: each row must have `frame_width`
cells, and its cells are checked in order. -/
def checkRows (frameWidth : Nat) : List (List Cell) → Except String Unit
  | [] => .ok ()
  | r :: rs =>
      if r.length ≠ frameWidth then
        .error "All rows in frames must have the same width"
      else
        match checkCells r with
        | .error e => .error e
        | .ok _ => checkRows frameWidth rs

/-- Frame loop of `ensure_dimensions_match`: each frame must have
`frame_height` rows, and its rows are checked in order. -/
def checkFramesLoop (frameHeight frameWidth : Nat) : List Frame → Except String Unit
  | [] => .ok ()
  | f :: fs =>
      if f.length ≠ frameHeight then
        .error "All frames must have the same height"
      else
        match checkRows frameWidth f with
        | .error e => .error e
        | .ok _ => checkFramesLoop frameHeight frameWidth fs

/-- `frame_height = len(self.frames[0])`. -/
def frameHeightOf (frames : List Frame) : Nat :=
  (frames.headD []).length

/-- `frame_width = len(self.frames[0][0]) if self.frames[0] else 0`. -/
def frameWidthOf (frames : List Frame) : Nat :=
  match frames.headD [] with
  | [] => 0
  | r :: _ => r.length

/-- `TestCaseBase.ensure_dimensions_match` (model validator, mode="after"):
the declared width/height are compared against the dimensions derived from
`frames[0]`, then every frame is checked. -/
def ensure_dimensions_match (width height : Int) (frames : List Frame) :
    Except String Unit :=
  if height ≠ (frameHeightOf frames : Int) ∨ width ≠ (frameWidthOf frames : Int) then
    .error "Provided width/height must match frame dimensions"
  else
    checkFramesLoop (frameHeightOf frames) (frameWidthOf frames) frames

/-- The validated `TestCaseBase` model: `name`, `width`, `height` (positive),
and the normalized `frames`. -/
structure TestCaseBase where
  name : String
  width : Int
  height : Int
  frames : List Frame
deriving Repr, DecidableEq

/-- Construction of a `TestCaseBase`: pydantic validates the fields in
declaration order (`width`/`height` carry `gt=0`, `frames` runs
`normalize_frames`), then runs `ensure_dimensions_match`; any failure
aborts construction and no object is produced. -/
def TestCaseBase.validate (name : String) (width height : Int)
    (frames : List RawFrame) : Except String TestCaseBase :=
  if width ≤ 0 then .error "Input should be greater than 0 (width)"
  else if height ≤ 0 then .error "Input should be greater than 0 (height)"
  else
    match normalize_frames frames with
    | .error e => .error e
    | .ok normalized =>
        match ensure_dimensions_match width height normalized with
        | .error e => .error e
        | .ok _ => .ok ⟨name, width, height, normalized⟩

/-! ### Lemmas about the frame checks -/

theorem checkCells_ok {cs : List Cell} (h : checkCells cs = .ok ()) :
    ∀ c ∈ cs, c.length = 4 := by
  induction cs with
  | nil => intro c hc; cases hc
  | cons c cs ih =>
      intro d hd
      by_cases hl : c.length ≠ 4
      · simp [checkCells, hl] at h
      · push_neg at hl
        rw [checkCells, if_neg (by simp [hl])] at h
        rcases List.mem_cons.mp hd with hd | hd
        · simpa [hd] using hl
        · exact ih h d hd

theorem checkRows_ok {fw : Nat} {rs : List (List Cell)}
    (h : checkRows fw rs = .ok ()) :
    ∀ r ∈ rs, r.length = fw ∧ ∀ c ∈ r, c.length = 4 := by
  induction rs with
  | nil => intro r hr; cases hr
  | cons r rs ih =>
      by_cases hl : r.length ≠ fw
      · simp [checkRows, hl] at h
      · push_neg at hl
        rw [checkRows, if_neg (by simp [hl])] at h
        cases hcell : checkCells r with
        | error e => rw [hcell] at h; cases h
        | ok u =>
            rw [hcell] at h
            intro s hs
            rcases List.mem_cons.mp hs with hs | hs
            · subst hs; exact ⟨hl, checkCells_ok (by cases u; exact hcell)⟩
            · exact ih h s hs

theorem checkFramesLoop_ok {fh fw : Nat} {fs : List Frame}
    (h : checkFramesLoop fh fw fs = .ok ()) :
    ∀ f ∈ fs, f.length = fh ∧ ∀ r ∈ f, r.length = fw ∧ ∀ c ∈ r, c.length = 4 := by
  induction fs with
  | nil => intro f hf; cases hf
  | cons f fs ih =>
      by_cases hl : f.length ≠ fh
      · simp [checkFramesLoop, hl] at h
      · push_neg at hl
        rw [checkFramesLoop, if_neg (by simp [hl])] at h
        cases hrow : checkRows fw f with
        | error e => rw [hrow] at h; cases h
        | ok u =>
            rw [hrow] at h
            intro g hg
            rcases List.mem_cons.mp hg with hg | hg
            · subst hg; exact ⟨hl, checkRows_ok (by cases u; exact hrow)⟩
            · exact ih h g hg

theorem normalize_frames_ok {raw : List RawFrame} {out : List Frame}
    (h : normalize_frames raw = .ok out) :
    raw ≠ [] ∧ out = raw.map fun fr => fr.map fun row => row.map normalizeCell := by
  unfold normalize_frames at h
  by_cases he : raw.isEmpty
  · simp [he] at h
  · rw [if_neg he] at h
    injection h with h
    refine ⟨?_, h.symm⟩
    intro hnil
    exact he (by simp [hnil])

theorem ensure_dimensions_match_ok {w h : Int} {frames : List Frame}
    (he : ensure_dimensions_match w h frames = .ok ()) :
    h = (frameHeightOf frames : Int) ∧ w = (frameWidthOf frames : Int) ∧
    checkFramesLoop (frameHeightOf frames) (frameWidthOf frames) frames = .ok () := by
  unfold ensure_dimensions_match at he
  by_cases hc : h ≠ (frameHeightOf frames : Int) ∨ w ≠ (frameWidthOf frames : Int)
  · rw [if_pos hc] at he; cases he
  · rw [if_neg hc] at he
    push_neg at hc
    exact ⟨hc.1, hc.2, he⟩

theorem TestCaseBase.validate_ok {name : String} {w h : Int} {raw : List RawFrame}
    {tc : TestCaseBase} (hok : TestCaseBase.validate name w h raw = .ok tc) :
    0 < w ∧ 0 < h ∧ raw ≠ [] ∧
    tc = ⟨name, w, h, raw.map fun fr => fr.map fun row => row.map normalizeCell⟩ ∧
    ensure_dimensions_match w h tc.frames = .ok () := by
  unfold TestCaseBase.validate at hok
  by_cases hw : w ≤ 0
  · rw [if_pos hw] at hok; cases hok
  · rw [if_neg hw] at hok
    by_cases hh : h ≤ 0
    · rw [if_pos hh] at hok; cases hok
    · rw [if_neg hh] at hok
      cases hn : normalize_frames raw with
      | error e => rw [hn] at hok; cases hok
      | ok normalized =>
          rw [hn] at hok
          dsimp only at hok
          cases he : ensure_dimensions_match w h normalized with
          | error e => rw [he] at hok; cases hok
          | ok u =>
              cases u
              rw [he] at hok
              injection hok with hok
              obtain ⟨hraw, hnorm⟩ := normalize_frames_ok hn
              subst hok
              subst hnorm
              exact ⟨by omega, by omega, hraw, rfl, he⟩

theorem normalizeCell_length (c : CellInput) : (normalizeCell c).length = 4 := by
  cases c with
  | scalar v => rfl
  | vec xs =>
      simp only [normalizeCell, List.length_append, List.length_replicate,
        List.length_take]
      omega

/-- C1: TestCase construction rejects an empty frame list; whenever
construction succeeds, every frame has exactly the declared number of rows,
every row has exactly the declared number of columns, and the declared
width/height equal the row/column counts derived from `frames[0]`
(contrapositively, any mismatching frame or row makes construction fail).
Failure yields an `Except.error`, so no partial `TestCaseBase` value exists. -/
theorem testcase_construction_checks_dimensions (name : String) (w h : Int)
    (raw : List RawFrame) :
    (raw = [] → ∃ e, TestCaseBase.validate name w h raw = .error e) ∧
    (∀ tc, TestCaseBase.validate name w h raw = .ok tc →
      tc.frames ≠ [] ∧
      h = ((tc.frames.headD []).length : Int) ∧
      w = (((tc.frames.headD []).headD []).length : Int) ∧
      (∀ f ∈ tc.frames, (f.length : Int) = h) ∧
      (∀ f ∈ tc.frames, ∀ r ∈ f, (r.length : Int) = w)) := by
  constructor
  · intro hraw
    subst hraw
    cases hv : TestCaseBase.validate name w h [] with
    | error e => exact ⟨e, rfl⟩
    | ok tc => exact absurd rfl (TestCaseBase.validate_ok hv).2.2.1
  · intro tc hok
    obtain ⟨hw, hh, hraw, htc, hens⟩ := TestCaseBase.validate_ok hok
    obtain ⟨hhf, hwf, hloop⟩ := ensure_dimensions_match_ok hens
    have hfr : tc.frames ≠ [] := by
      intro hnil
      have h0 : frameHeightOf tc.frames = 0 := by
        simp only [frameHeightOf, hnil, List.headD_nil, List.length_nil]
      rw [h0] at hhf
      simp at hhf
      omega
    have hf0 : tc.frames.headD [] ≠ [] := by
      intro hnil
      have h0 : frameHeightOf tc.frames = 0 := by
        simp only [frameHeightOf, hnil, List.length_nil]
      rw [h0] at hhf
      simp at hhf
      omega
    have hwf' : frameWidthOf tc.frames = ((tc.frames.headD []).headD []).length := by
      rw [frameWidthOf]
      cases hc : tc.frames.headD [] with
      | nil => exact absurd hc hf0
      | cons r rs => simp [hc]
    refine ⟨hfr, hhf, by rw [hwf, hwf'], ?_, ?_⟩
    · intro f hf
      rw [((checkFramesLoop_ok hloop) f hf).1]
      exact hhf.symm
    · intro f hf r hr
      rw [(((checkFramesLoop_ok hloop) f hf).2 r hr).1]
      exact hwf.symm

/-- Witness for C1 at concrete inputs: construction at a consistent 1×1
single-frame input succeeds and its frame list is nonempty. -/
theorem testcase_construction_checks_dimensions_witness :
    (⟨"t", 1, 1, [[[[5, 0, 0, 0]]]]⟩ : TestCaseBase).frames ≠ [] :=
  ((testcase_construction_checks_dimensions "t" 1 1 [[[CellInput.scalar 5]]]).2
    ⟨"t", 1, 1, [[[[5, 0, 0, 0]]]]⟩ (by rfl)).1

/-- C2: every stored cell of an accepted TestCase is exactly the 4-element
normalization of the corresponding input cell: a bare scalar `v` becomes
`[v, 0, 0, 0]`, a list/tuple with fewer than 4 components is right-padded
with zeros to length 4, and every stored cell has length 4. -/
theorem testcase_cells_normalize_to_rgba (name : String) (w h : Int)
    (raw : List RawFrame) (tc : TestCaseBase)
    (hok : TestCaseBase.validate name w h raw = .ok tc) :
    tc.frames = (raw.map fun fr => fr.map fun row => row.map normalizeCell) ∧
    (∀ f ∈ tc.frames, ∀ r ∈ f, ∀ c ∈ r, c.length = 4) ∧
    (∀ v : Rat, normalizeCell (.scalar v) = [v, 0, 0, 0]) ∧
    (∀ xs : List Rat, xs.length < 4 →
      normalizeCell (.vec xs) = xs ++ List.replicate (4 - xs.length) 0) := by
  obtain ⟨hw, hh, hraw, htc, hens⟩ := TestCaseBase.validate_ok hok
  refine ⟨by rw [htc], ?_, fun v => rfl, ?_⟩
  · intro f hf r hr c hc
    rw [htc] at hf
    obtain ⟨fr, hfr, rfl⟩ := List.mem_map.mp hf
    obtain ⟨row, hrow, rfl⟩ := List.mem_map.mp hr
    obtain ⟨cell, hcell, rfl⟩ := List.mem_map.mp hc
    exact normalizeCell_length cell
  · intro xs hxs
    rw [normalizeCell, List.take_of_length_le (by omega)]

/-- Witness for C2 at a concrete input: a short vector cell `[1, 2]` is
accepted and stored right-padded to `[1, 2, 0, 0]`. -/
theorem testcase_cells_normalize_to_rgba_witness :
    (⟨"t", 1, 1, [[[[1, 2, 0, 0]]]]⟩ : TestCaseBase).frames =
      ([[[CellInput.vec [1, 2]]]].map fun fr => fr.map fun row =>
        row.map normalizeCell) :=
  (testcase_cells_normalize_to_rgba "t" 1 1 [[[CellInput.vec [1, 2]]]]
    ⟨"t", 1, 1, [[[[1, 2, 0, 0]]]]⟩ (by rfl)).1

/-! ## repositories.py — JSONRepository and its specializations

The backing JSON file is modelled by its parse outcome `RawDoc α`:
`json.loads` failing is `unparseable`, a parsed root that is not a list is
`nonArray`, and a parsed list of records is `arr items` (every record the
repository ever writes is the `model_dump` of a validated model, so array
elements are modelled as records directly, and `model_validate` in
`list`/`get` is the identity on them). Mutating operations return their
result together with the post-state of the document; a raised exception
leaves the document untouched. -/

/-- The exceptions the repository raises: `KeyError(config_id)` from
`update`, and `ValueError("Repository root must be a list")` from `_read`. -/
inductive RepoError where
  | notFound (id : String)
  | rootNotList
deriving Repr, DecidableEq

/-- Parse outcome of the backing JSON document. -/
inductive RawDoc (α : Type) where
  | unparseable
  | nonArray
  | arr (items : List α)
deriving Repr, DecidableEq

/-- `JSONRepository._read`: unparseable JSON is caught and replaced by the
empty list; a parsed root that is not a list raises `ValueError`. -/
def repoRead {α : Type} : RawDoc α → Except RepoError (List α)
  | .unparseable => .ok []
  | .nonArray => .error .rootNotList
  | .arr items => .ok items

/-- `JSONRepository._find_index`: index of the first record whose `id`
equals `item_id`. -/
def find_index {α : Type} (idOf : α → String) (item_id : String) :
    List α → Option Nat
  | [] => none
  | item :: rest =>
      if idOf item = item_id then some 0
      else (find_index idOf item_id rest).map (· + 1)

/-- The loop of `JSONRepository.get`: first record whose `id` matches. -/
def findRecord {α : Type} (idOf : α → String) (item_id : String) :
    List α → Option α
  | [] => none
  | item :: rest =>
      if idOf item = item_id then some item else findRecord idOf item_id rest

/-- `JSONRepository.list`. -/
def repoList {α : Type} (doc : RawDoc α) : Except RepoError (List α) :=
  repoRead doc

/-- `JSONRepository.get`: `None` when no record matches. -/
def repoGet {α : Type} (idOf : α → String) (doc : RawDoc α) (item_id : String) :
    Except RepoError (Option α) :=
  match repoRead doc with
  | .error e => .error e
  | .ok items => .ok (findRecord idOf item_id items)

/-- `JSONRepository.delete`: pops the first matching record and reports
whether a removal occurred. -/
def repoDelete {α : Type} (idOf : α → String) (doc : RawDoc α) (item_id : String) :
    Except RepoError Bool × RawDoc α :=
  match repoRead doc with
  | .error e => (.error e, doc)
  | .ok items =>
      match find_index idOf item_id items with
      | none => (.ok false, doc)
      | some idx => (.ok true, .arr (items.eraseIdx idx))

/-- `rule_set: Dict[str, Any]` is opaque to the repository; it is modelled
as an association list of strings. -/
abbrev RuleSet := List (String × String)

/-- The `EvolutionConfig` model (id plus the `EvolutionConfigBase` fields). -/
structure EvolutionConfig where
  id : String
  name : String
  description : Option String
  grid_simulation_code : String
  rule_set : RuleSet
deriving Repr, DecidableEq

/-- The `EvolutionConfigCreate` payload: `id` is optional. -/
structure EvolutionConfigCreate where
  id : Option String
  name : String
  description : Option String
  grid_simulation_code : String
  rule_set : RuleSet
deriving Repr, DecidableEq

/-- Python `payload.id or str(uuid4())`: `None` and the empty string are
falsy, so both select the generated token `gen`. -/
def pyOr (i : Option String) (gen : String) : String :=
  match i with
  | none => gen
  | some s => if s = "" then gen else s

/-- `EvolutionConfig(id=..., **payload.model_dump(exclude={"id"}))`: the
record built from a chosen id and all non-id payload fields. -/
def configOfPayload (new_id : String) (payload : EvolutionConfigCreate) :
    EvolutionConfig :=
  { id := new_id, name := payload.name, description := payload.description,
    grid_simulation_code := payload.grid_simulation_code,
    rule_set := payload.rule_set }

/-- `EvolutionConfigRepository.create`; `gen` stands for the value of
`str(uuid4())`. -/
def configCreate (doc : RawDoc EvolutionConfig) (gen : String)
    (payload : EvolutionConfigCreate) :
    Except RepoError EvolutionConfig × RawDoc EvolutionConfig :=
  let config := configOfPayload (pyOr payload.id gen) payload
  match repoRead doc with
  | .error e => (.error e, doc)
  | .ok items => (.ok config, .arr (items ++ [config]))

/-- `EvolutionConfigRepository.update`. -/
def configUpdate (doc : RawDoc EvolutionConfig) (config_id : String)
    (payload : EvolutionConfigCreate) :
    Except RepoError EvolutionConfig × RawDoc EvolutionConfig :=
  match repoRead doc with
  | .error e => (.error e, doc)
  | .ok items =>
      match find_index EvolutionConfig.id config_id items with
      | none => (.error (.notFound config_id), doc)
      | some idx =>
          let updated := configOfPayload config_id payload
          (.ok updated, .arr (items.set idx updated))

/-- A sequence of `create` calls (payload with its `gen` token), as used by
the `list()`-after-N-creates property. -/
def configCreateAll (payloads : List (String × EvolutionConfigCreate))
    (doc : RawDoc EvolutionConfig) : RawDoc EvolutionConfig :=
  payloads.foldl (fun d p => (configCreate d p.1 p.2).2) doc

/-- The `TestCase` model as the group repository stores it (its frames are
already validated/normalized by pydantic before reaching the repository). -/
structure TestCaseRec where
  id : String
  name : String
  width : Int
  height : Int
  frames : List Frame
deriving Repr, DecidableEq

/-- The `TestCaseCreate` payload: `id` is optional. -/
structure TestCaseCreateRec where
  id : Option String
  name : String
  width : Int
  height : Int
  frames : List Frame
deriving Repr, DecidableEq

/-- The `TestCaseGroup` model. -/
structure TestCaseGroupRec where
  id : String
  name : String
  description : Option String
  tests : List TestCaseRec
deriving Repr, DecidableEq

/-- The `TestCaseGroupCreate` payload. -/
structure TestCaseGroupCreateRec where
  id : Option String
  name : String
  description : Option String
  tests : List TestCaseCreateRec
deriving Repr, DecidableEq

/-- One step of `TestCaseGroupRepository._materialize_tests`:
`test_id = test.id or str(uuid4())`, then
`TestCase(id=test_id, **test.model_dump(exclude={"id"}))` (re-validation of
the already-normalized frames always succeeds, so it is field copying). -/
def materializeTest (gen : String) (test : TestCaseCreateRec) : TestCaseRec :=
  { id := pyOr test.id gen, name := test.name, width := test.width,
    height := test.height, frames := test.frames }

/-- The loop of `TestCaseGroupRepository._materialize_tests`, carrying the
position `i` of the next test; `genTests i` stands for the `str(uuid4())`
drawn for the i-th test when its id is falsy. -/
def materializeFrom (genTests : Nat → String) (i : Nat) :
    List TestCaseCreateRec → List TestCaseRec
  | [] => []
  | test :: rest =>
      materializeTest (genTests i) test :: materializeFrom genTests (i + 1) rest

/-- `TestCaseGroupRepository._materialize_tests`. -/
def materialize_tests (genTests : Nat → String)
    (tests : List TestCaseCreateRec) : List TestCaseRec :=
  materializeFrom genTests 0 tests

/-- `TestCaseGroup(id=..., tests=tests, **payload.model_dump(exclude={"id", "tests"}))`. -/
def groupOfPayload (new_id : String) (tests : List TestCaseRec)
    (payload : TestCaseGroupCreateRec) : TestCaseGroupRec :=
  { id := new_id, name := payload.name, description := payload.description,
    tests := tests }

/-- `TestCaseGroupRepository.create`. -/
def groupCreate (doc : RawDoc TestCaseGroupRec) (gen : String)
    (genTests : Nat → String) (payload : TestCaseGroupCreateRec) :
    Except RepoError TestCaseGroupRec × RawDoc TestCaseGroupRec :=
  let tests := materialize_tests genTests payload.tests
  let group := groupOfPayload (pyOr payload.id gen) tests payload
  match repoRead doc with
  | .error e => (.error e, doc)
  | .ok items => (.ok group, .arr (items ++ [group]))

/-- `TestCaseGroupRepository.update`. -/
def groupUpdate (doc : RawDoc TestCaseGroupRec) (genTests : Nat → String)
    (group_id : String) (payload : TestCaseGroupCreateRec) :
    Except RepoError TestCaseGroupRec × RawDoc TestCaseGroupRec :=
  match repoRead doc with
  | .error e => (.error e, doc)
  | .ok items =>
      match find_index TestCaseGroupRec.id group_id items with
      | none => (.error (.notFound group_id), doc)
      | some idx =>
          let tests := materialize_tests genTests payload.tests
          let updated := groupOfPayload group_id tests payload
          (.ok updated, .arr (items.set idx updated))

/-! ### Lemmas about the repository helpers -/

theorem find_index_eq_none {α : Type} (idOf : α → String) (item_id : String)
    (items : List α) :
    find_index idOf item_id items = none ↔ ∀ r ∈ items, idOf r ≠ item_id := by
  induction items with
  | nil => simp [find_index]
  | cons r rest ih =>
      by_cases h : idOf r = item_id
      · simp [find_index, h]
      · simp [find_index, h, ih]

theorem find_index_lt_length {α : Type} {idOf : α → String} {item_id : String}
    {items : List α} {idx : Nat} (h : find_index idOf item_id items = some idx) :
    idx < items.length := by
  induction items generalizing idx with
  | nil => cases h
  | cons r rest ih =>
      by_cases hr : idOf r = item_id
      · simp [find_index, hr] at h
        subst h
        simp
      · simp [find_index, hr] at h
        obtain ⟨j, hj, rfl⟩ := h
        have := ih hj
        simp
        omega

theorem find_index_append_left {α : Type} {idOf : α → String} {item_id : String}
    {items : List α} {idx : Nat} (extra : List α)
    (h : find_index idOf item_id items = some idx) :
    find_index idOf item_id (items ++ extra) = some idx := by
  induction items generalizing idx with
  | nil => cases h
  | cons r rest ih =>
      by_cases hr : idOf r = item_id
      · simp [find_index, hr] at h ⊢
        exact h
      · simp [find_index, hr] at h ⊢
        obtain ⟨j, hj, rfl⟩ := h
        exact ⟨j, ih hj, rfl⟩

theorem findRecord_append_left {α : Type} {idOf : α → String} {item_id : String}
    {items : List α} {r : α} (extra : List α)
    (h : findRecord idOf item_id items = some r) :
    findRecord idOf item_id (items ++ extra) = some r := by
  induction items with
  | nil => cases h
  | cons x rest ih =>
      by_cases hx : idOf x = item_id
      · simp [findRecord, hx] at h ⊢
        exact h
      · simp [findRecord, hx] at h ⊢
        exact ih h

theorem findRecord_append_none {α : Type} {idOf : α → String} {item_id : String}
    {items : List α} (extra : List α)
    (h : ∀ r ∈ items, idOf r ≠ item_id) :
    findRecord idOf item_id (items ++ extra) = findRecord idOf item_id extra := by
  induction items with
  | nil => simp
  | cons x rest ih =>
      have hx : idOf x ≠ item_id := h x (by simp)
      simp only [List.cons_append, findRecord, if_neg hx]
      exact ih fun r hr => h r (by simp [hr])

theorem eraseIdx_append_left {α : Type} (l1 l2 : List α) (idx : Nat)
    (h : idx < l1.length) :
    (l1 ++ l2).eraseIdx idx = l1.eraseIdx idx ++ l2 := by
  induction l1 generalizing idx with
  | nil => simp at h
  | cons x rest ih =>
      cases idx with
      | zero => simp [List.eraseIdx]
      | succ j =>
          simp only [List.cons_append, List.eraseIdx]
          congr 1
          exact ih j (by simpa using h)

/-! ### Concrete fixtures used by witnesses and counterexamples -/

/-- A stored config with id "a". -/
def cfgA : EvolutionConfig := ⟨"a", "old", none, "code", []⟩

/-- A second, different config that also carries id "a". -/
def cfgA2 : EvolutionConfig := ⟨"a", "other", none, "code2", []⟩

/-- A payload carrying the explicit id "z". -/
def payB : EvolutionConfigCreate := ⟨some "z", "new", none, "code3", []⟩

/-- A payload with no id. -/
def payNoId : EvolutionConfigCreate := ⟨none, "fresh", none, "code4", []⟩

/-- A payload whose explicit id "a" duplicates `cfgA`'s id. -/
def payDupA : EvolutionConfigCreate := ⟨some "a", "dup", none, "code5", []⟩

/-! ### C3 — update replaces wholesale, preserves the id, not-found on miss -/

/-- C3: when a record with `config_id` exists, `update` replaces the whole
record at that position with one built only from the payload's non-id
fields, and the stored and returned record's id is `config_id` (the
payload's id field is ignored); when no record matches, `update` raises
`KeyError` and the document is unchanged. -/
theorem config_update_replaces_wholesale (doc : RawDoc EvolutionConfig)
    (items : List EvolutionConfig) (config_id : String)
    (payload : EvolutionConfigCreate) (hread : repoRead doc = .ok items) :
    (∀ idx, find_index EvolutionConfig.id config_id items = some idx →
      configUpdate doc config_id payload =
        (.ok (configOfPayload config_id payload),
         .arr (items.set idx (configOfPayload config_id payload))) ∧
      (configOfPayload config_id payload).id = config_id) ∧
    (find_index EvolutionConfig.id config_id items = none →
      configUpdate doc config_id payload = (.error (.notFound config_id), doc)) := by
  constructor
  · intro idx hidx
    refine ⟨?_, rfl⟩
    unfold configUpdate
    rw [hread]
    dsimp only
    rw [hidx]
  · intro hnone
    unfold configUpdate
    rw [hread]
    dsimp only
    rw [hnone]

/-- Witness for C3: updating the stored record with id "a" by a payload
whose own id field is "z" stores and returns a record with id "a". -/
theorem config_update_replaces_wholesale_witness :
    configUpdate (RawDoc.arr [cfgA]) "a" payB =
      (.ok (configOfPayload "a" payB),
       .arr ([cfgA].set 0 (configOfPayload "a" payB))) ∧
    (configOfPayload "a" payB).id = "a" :=
  (config_update_replaces_wholesale (RawDoc.arr [cfgA]) [cfgA] "a" payB rfl).1
    0 (by decide)

/-! ### C4 — create assigns ids and appends -/

/-- C4: `create` appends to the store and returns the new record; a
supplied non-empty id is stored exactly, and otherwise the freshly drawn
`str(uuid4())` token `gen` is used, which—under the UUID library's
guarantee that the token is non-empty and does not collide with any stored
id—makes the assigned id non-empty and distinct from every id already in
the store. -/
theorem config_create_assigns_id_and_appends (doc : RawDoc EvolutionConfig)
    (items : List EvolutionConfig) (gen : String)
    (payload : EvolutionConfigCreate) (hread : repoRead doc = .ok items)
    (hgen : gen ≠ "") (hfresh : ∀ r ∈ items, r.id ≠ gen) :
    configCreate doc gen payload =
      (.ok (configOfPayload (pyOr payload.id gen) payload),
       .arr (items ++ [configOfPayload (pyOr payload.id gen) payload])) ∧
    (∀ i, payload.id = some i → i ≠ "" →
      (configOfPayload (pyOr payload.id gen) payload).id = i) ∧
    ((payload.id = none ∨ payload.id = some "") →
      (configOfPayload (pyOr payload.id gen) payload).id = gen ∧
      (configOfPayload (pyOr payload.id gen) payload).id ≠ "" ∧
      ∀ r ∈ items, r.id ≠ (configOfPayload (pyOr payload.id gen) payload).id) := by
  refine ⟨?_, ?_, ?_⟩
  · unfold configCreate
    rw [hread]
  · intro i hi hne
    simp [configOfPayload, pyOr, hi, hne]
  · intro hcase
    have hid : pyOr payload.id gen = gen := by
      rcases hcase with h | h <;> simp [pyOr, h]
    refine ⟨by simp [configOfPayload, hid], by simp [configOfPayload, hid, hgen], ?_⟩
    intro r hr
    simp only [configOfPayload, hid]
    exact hfresh r hr

/-- Witness for C4: creating from the empty store with no payload id
assigns the generated token "g1" and appends the record. -/
theorem config_create_assigns_id_and_appends_witness :
    configCreate (RawDoc.arr []) "g1" payNoId =
      (.ok (configOfPayload (pyOr payNoId.id "g1") payNoId),
       .arr ([] ++ [configOfPayload (pyOr payNoId.id "g1") payNoId])) :=
  (config_create_assigns_id_and_appends (RawDoc.arr []) [] "g1" payNoId rfl
    (by decide) (by simp)).1

/-! ### C5 — delete semantics -/

def countMatches {α : Type} (idOf : α → String) (item_id : String) :
    List α → Nat
  | [] => 0
  | r :: rest => (if idOf r = item_id then 1 else 0) + countMatches idOf item_id rest

theorem find_index_of_countMatches_zero {α : Type} {idOf : α → String}
    {item_id : String} {items : List α}
    (h : countMatches idOf item_id items = 0) :
    find_index idOf item_id items = none := by
  induction items with
  | nil => rfl
  | cons x rest ih =>
      by_cases hx : idOf x = item_id
      · rw [countMatches, if_pos hx] at h
        omega
      · rw [countMatches, if_neg hx] at h
        simp only [find_index, if_neg hx]
        rw [ih (by omega)]
        rfl

theorem find_index_countMatches_one {α : Type} {idOf : α → String}
    {item_id : String} {items : List α}
    (h : countMatches idOf item_id items = 1) :
    ∃ idx, find_index idOf item_id items = some idx ∧
      countMatches idOf item_id (items.eraseIdx idx) = 0 := by
  induction items with
  | nil => simp [countMatches] at h
  | cons x rest ih =>
      by_cases hx : idOf x = item_id
      · rw [countMatches, if_pos hx] at h
        exact ⟨0, by simp [find_index, hx], by simpa [List.eraseIdx] using h⟩
      · rw [countMatches, if_neg hx] at h
        obtain ⟨idx, hidx, hzero⟩ := ih (by omega)
        refine ⟨idx + 1, by simp [find_index, hx, hidx], ?_⟩
        simp only [List.eraseIdx, countMatches, if_neg hx]
        omega

/-- C5 counterexample: on a store holding two records that both carry id
"a" (reachable, since `create` never checks id uniqueness), `delete("a")`
called twice returns `true` both times, refuting "`true` then `false`" for
every store state. -/
theorem delete_twice_counterexample :
    (repoDelete EvolutionConfig.id (RawDoc.arr [cfgA, cfgA2]) "a").1 = .ok true ∧
    (repoDelete EvolutionConfig.id
      (repoDelete EvolutionConfig.id (RawDoc.arr [cfgA, cfgA2]) "a").2 "a").1 =
      .ok true := by
  constructor <;> rfl

/-- C5 (amended): `delete` returns `false` and leaves the document
untouched when no record matches, returns `true` and removes exactly the
first matching record when one exists, and never raises (given that the
document reads as a store); on a store holding exactly one record with the
id, deleting twice returns `true` then `false` (with duplicated ids the
second call can return `true` again, as the counterexample shows). -/
theorem delete_semantics (doc : RawDoc EvolutionConfig)
    (items : List EvolutionConfig) (item_id : String)
    (hread : repoRead doc = .ok items) :
    (find_index EvolutionConfig.id item_id items = none →
      repoDelete EvolutionConfig.id doc item_id = (.ok false, doc)) ∧
    (∀ idx, find_index EvolutionConfig.id item_id items = some idx →
      repoDelete EvolutionConfig.id doc item_id =
        (.ok true, .arr (items.eraseIdx idx))) ∧
    (∀ e, (repoDelete EvolutionConfig.id doc item_id).1 ≠ .error e) ∧
    (countMatches EvolutionConfig.id item_id items = 1 →
      (repoDelete EvolutionConfig.id doc item_id).1 = .ok true ∧
      (repoDelete EvolutionConfig.id
        (repoDelete EvolutionConfig.id doc item_id).2 item_id).1 = .ok false) := by
  have hnone : ∀ hn : find_index EvolutionConfig.id item_id items = none,
      repoDelete EvolutionConfig.id doc item_id = (.ok false, doc) := by
    intro hn
    unfold repoDelete
    rw [hread]
    dsimp only
    rw [hn]
  have hsome : ∀ idx, find_index EvolutionConfig.id item_id items = some idx →
      repoDelete EvolutionConfig.id doc item_id =
        (.ok true, .arr (items.eraseIdx idx)) := by
    intro idx hidx
    unfold repoDelete
    rw [hread]
    dsimp only
    rw [hidx]
  refine ⟨hnone, hsome, ?_, ?_⟩
  · intro e
    cases hidx : find_index EvolutionConfig.id item_id items with
    | none => rw [hnone hidx]; simp
    | some idx => rw [hsome idx hidx]; simp
  · intro hone
    obtain ⟨idx, hidx, hzero⟩ := find_index_countMatches_one hone
    rw [hsome idx hidx]
    refine ⟨rfl, ?_⟩
    have hsecond : repoDelete EvolutionConfig.id
        (RawDoc.arr (items.eraseIdx idx)) item_id =
        (.ok false, RawDoc.arr (items.eraseIdx idx)) := by
      unfold repoDelete
      dsimp only [repoRead]
      rw [find_index_of_countMatches_zero hzero]
    rw [hsecond]

/-- Witness for C5 at a concrete store with a single record with id "a":
delete twice returns `true` then `false`. -/
theorem delete_semantics_witness :
    (repoDelete EvolutionConfig.id (RawDoc.arr [cfgA]) "a").1 = .ok true ∧
    (repoDelete EvolutionConfig.id
      (repoDelete EvolutionConfig.id (RawDoc.arr [cfgA]) "a").2 "a").1 =
      .ok false :=
  (delete_semantics (RawDoc.arr [cfgA]) [cfgA] "a" rfl).2.2.2 (by decide)

/-! ### C6 — create/get round-trip and list length -/

theorem configCreate_arr (items : List EvolutionConfig) (gen : String)
    (payload : EvolutionConfigCreate) :
    configCreate (RawDoc.arr items) gen payload =
      (.ok (configOfPayload (pyOr payload.id gen) payload),
       .arr (items ++ [configOfPayload (pyOr payload.id gen) payload])) := rfl

theorem configCreateAll_arr (payloads : List (String × EvolutionConfigCreate)) :
    ∀ items : List EvolutionConfig,
      ∃ l, configCreateAll payloads (RawDoc.arr items) = RawDoc.arr l ∧
        l.length = items.length + payloads.length := by
  induction payloads with
  | nil => intro items; exact ⟨items, rfl, by simp [configCreateAll]⟩
  | cons p ps ih =>
      intro items
      obtain ⟨l, hl, hlen⟩ :=
        ih (items ++ [configOfPayload (pyOr p.2.id p.1) p.2])
      refine ⟨l, ?_, by simp at hlen ⊢; omega⟩
      show configCreateAll ps (configCreate (RawDoc.arr items) p.1 p.2).2 = RawDoc.arr l
      rw [configCreate_arr]
      exact hl

/-- C6 counterexample: with a record with id "a" already stored, creating a
payload that carries the same explicit id "a" succeeds, but `get` of the
created id then returns the earlier record, which is not deep-equal to the
create result. -/
theorem create_get_roundtrip_counterexample :
    (configCreate (RawDoc.arr [cfgA]) "g" payDupA).1 =
      .ok (configOfPayload "a" payDupA) ∧
    repoGet EvolutionConfig.id (configCreate (RawDoc.arr [cfgA]) "g" payDupA).2
      "a" = .ok (some cfgA) ∧
    cfgA ≠ configOfPayload "a" payDupA := by
  refine ⟨rfl, rfl, ?_⟩
  intro h
  exact absurd (congrArg EvolutionConfig.name h) (by decide)

/-- C6 (amended): `create(payload)` followed by `get` of the created id
returns the create result provided the assigned id does not already occur
in the store (with a duplicated id, `get` returns the earlier record
instead); and after N creates from the empty store, `list()` has length N
unconditionally. -/
theorem create_get_roundtrip (doc : RawDoc EvolutionConfig)
    (items : List EvolutionConfig) (gen : String)
    (payload : EvolutionConfigCreate) (hread : repoRead doc = .ok items)
    (hfresh : ∀ r ∈ items, r.id ≠ pyOr payload.id gen) :
    configCreate doc gen payload =
      (.ok (configOfPayload (pyOr payload.id gen) payload),
       .arr (items ++ [configOfPayload (pyOr payload.id gen) payload])) ∧
    repoGet EvolutionConfig.id (configCreate doc gen payload).2
      (configOfPayload (pyOr payload.id gen) payload).id =
      .ok (some (configOfPayload (pyOr payload.id gen) payload)) ∧
    (∀ payloads : List (String × EvolutionConfigCreate),
      ∃ l, repoList (configCreateAll payloads (RawDoc.arr [])) = .ok l ∧
        l.length = payloads.length) := by
  have hcreate : configCreate doc gen payload =
      (.ok (configOfPayload (pyOr payload.id gen) payload),
       .arr (items ++ [configOfPayload (pyOr payload.id gen) payload])) := by
    unfold configCreate
    rw [hread]
  refine ⟨hcreate, ?_, ?_⟩
  · rw [hcreate]
    show Except.ok (findRecord EvolutionConfig.id _ _) = _
    rw [findRecord_append_none _ (by
      intro r hr
      simpa [configOfPayload] using hfresh r hr)]
    simp [findRecord, configOfPayload]
  · intro payloads
    obtain ⟨l, hl, hlen⟩ := configCreateAll_arr payloads []
    exact ⟨l, by rw [hl]; rfl, by simpa using hlen⟩

/-- Witness for C6: creating id "z" on the empty store and then getting
"z" returns exactly the created record. -/
theorem create_get_roundtrip_witness :
    repoGet EvolutionConfig.id (configCreate (RawDoc.arr []) "g" payB).2
      (configOfPayload (pyOr payB.id "g") payB).id =
      .ok (some (configOfPayload (pyOr payB.id "g") payB)) :=
  (create_get_roundtrip (RawDoc.arr []) [] "g" payB rfl (by simp)).2.1

/-! ### C7 — malformed backing document -/

/-- C7 counterexample: `_read` is shared by every operation, so the
unparseable-JSON recovery is not reads-only: `create` (a mutating
operation) on an unparseable document succeeds, treating the store as
empty and appending, and `delete` returns `false` instead of propagating
an error. -/
theorem unparseable_lenient_for_mutations_counterexample :
    configCreate RawDoc.unparseable "g" payNoId =
      (.ok (configOfPayload "g" payNoId), .arr [configOfPayload "g" payNoId]) ∧
    repoDelete EvolutionConfig.id RawDoc.unparseable "a" =
      (.ok false, RawDoc.unparseable) :=
  ⟨rfl, rfl⟩

/-- C7 (amended): unparseable JSON is treated as an empty store by every
repository operation — reads and mutations alike — while a parsed
non-array root raises `ValueError` that propagates unchanged from every
operation, the document staying untouched. -/
theorem malformed_document_handling (item_id gen : String)
    (payload : EvolutionConfigCreate) :
    repoList (RawDoc.unparseable : RawDoc EvolutionConfig) = .ok [] ∧
    repoGet EvolutionConfig.id RawDoc.unparseable item_id = .ok none ∧
    repoDelete EvolutionConfig.id RawDoc.unparseable item_id =
      (.ok false, RawDoc.unparseable) ∧
    configCreate RawDoc.unparseable gen payload =
      (.ok (configOfPayload (pyOr payload.id gen) payload),
       .arr [configOfPayload (pyOr payload.id gen) payload]) ∧
    configUpdate RawDoc.unparseable item_id payload =
      (.error (.notFound item_id), RawDoc.unparseable) ∧
    repoList (RawDoc.nonArray : RawDoc EvolutionConfig) =
      .error .rootNotList ∧
    repoGet EvolutionConfig.id RawDoc.nonArray item_id = .error .rootNotList ∧
    repoDelete EvolutionConfig.id RawDoc.nonArray item_id =
      (.error .rootNotList, RawDoc.nonArray) ∧
    configCreate RawDoc.nonArray gen payload =
      (.error .rootNotList, RawDoc.nonArray) ∧
    configUpdate RawDoc.nonArray item_id payload =
      (.error .rootNotList, RawDoc.nonArray) :=
  ⟨rfl, rfl, rfl, rfl, rfl, rfl, rfl, rfl, rfl, rfl⟩

/-! ### C8 — group test materialization and whole-list replacement -/

theorem materializeFrom_length (genTests : Nat → String) :
    ∀ (i : Nat) (tests : List TestCaseCreateRec),
      (materializeFrom genTests i tests).length = tests.length := by
  intro i tests
  induction tests generalizing i with
  | nil => rfl
  | cons t ts ih => simp [materializeFrom, ih]

theorem materializeFrom_getElem? (genTests : Nat → String) :
    ∀ (i j : Nat) (tests : List TestCaseCreateRec),
      (materializeFrom genTests i tests)[j]? =
        (tests[j]?).map fun t => materializeTest (genTests (i + j)) t := by
  intro i j tests
  induction tests generalizing i j with
  | nil => simp [materializeFrom]
  | cons t ts ih =>
      cases j with
      | zero => simp [materializeFrom]
      | succ k =>
          simp only [materializeFrom, List.getElem?_cons_succ]
          rw [ih]
          have harith : i + (k + 1) = i + 1 + k := by omega
          rw [harith]

/-- A test-case payload that supplies the empty string as its id. -/
def tcPayEmptyId : TestCaseCreateRec := ⟨some "", "t", 1, 1, [[[[5, 0, 0, 0]]]]⟩

/-- A test-case payload with a non-empty id. -/
def tcPayWithId : TestCaseCreateRec := ⟨some "tid", "t1", 1, 1, [[[[1, 0, 0, 0]]]]⟩

/-- A stored group with id "g1" holding one old test. -/
def grpA : TestCaseGroupRec :=
  ⟨"g1", "grp", none, [⟨"oldtid", "t0", 1, 1, [[[[0, 0, 0, 0]]]]⟩]⟩

/-- A group payload whose single test carries id "tid". -/
def grpPay : TestCaseGroupCreateRec := ⟨some "zzz", "grp2", none, [tcPayWithId]⟩

/-- A group payload whose single test supplies the empty string as id. -/
def grpPayEmptyTid : TestCaseGroupCreateRec := ⟨some "g2", "grp3", none, [tcPayEmptyId]⟩

/-- C8 counterexample: in a group create, a test payload that supplies the
empty string as its id is not honored as given — `test.id or str(uuid4())`
treats the empty string as falsy, so the materialized test gets the
generated id "gen0" instead of the supplied "". -/
theorem group_create_empty_test_id_counterexample :
    tcPayEmptyId.id = some "" ∧
    (groupCreate (RawDoc.arr []) "gg" (fun _ => "gen0") grpPayEmptyTid).1 =
      .ok ⟨"g2", "grp3", none, [⟨"gen0", "t", 1, 1, [[[[5, 0, 0, 0]]]]⟩]⟩ ∧
    ("gen0" : String) ≠ "" := by
  refine ⟨rfl, rfl, by decide⟩

/-- C8 (amended): on group create and update, every test payload is
materialized in order with an id equal to the payload's id when a
non-empty one is supplied, and the freshly drawn token when the id is
absent or empty; create appends the group built from these materialized
tests, and update replaces the stored group's entire test list with them
(the old tests do not occur — no merge by test id). -/
theorem group_tests_materialization (doc : RawDoc TestCaseGroupRec)
    (items : List TestCaseGroupRec) (gen : String) (genTests : Nat → String)
    (group_id : String) (payload : TestCaseGroupCreateRec)
    (hread : repoRead doc = .ok items) :
    (materialize_tests genTests payload.tests).length = payload.tests.length ∧
    (∀ j t, payload.tests[j]? = some t →
      (materialize_tests genTests payload.tests)[j]? =
        some (materializeTest (genTests j) t) ∧
      (∀ i, t.id = some i → i ≠ "" → (materializeTest (genTests j) t).id = i) ∧
      ((t.id = none ∨ t.id = some "") →
        (materializeTest (genTests j) t).id = genTests j)) ∧
    groupCreate doc gen genTests payload =
      (.ok (groupOfPayload (pyOr payload.id gen)
              (materialize_tests genTests payload.tests) payload),
       .arr (items ++ [groupOfPayload (pyOr payload.id gen)
              (materialize_tests genTests payload.tests) payload])) ∧
    (∀ idx, find_index TestCaseGroupRec.id group_id items = some idx →
      groupUpdate doc genTests group_id payload =
        (.ok (groupOfPayload group_id
                (materialize_tests genTests payload.tests) payload),
         .arr (items.set idx (groupOfPayload group_id
                (materialize_tests genTests payload.tests) payload)))) := by
  refine ⟨materializeFrom_length genTests 0 payload.tests, ?_, ?_, ?_⟩
  · intro j t hj
    refine ⟨?_, ?_, ?_⟩
    · rw [materialize_tests, materializeFrom_getElem?, hj]
      simp
    · intro i hi hne
      simp [materializeTest, pyOr, hi, hne]
    · intro hcase
      rcases hcase with h | h <;> simp [materializeTest, pyOr, h]
  · unfold groupCreate
    rw [hread]
  · intro idx hidx
    unfold groupUpdate
    rw [hread]
    dsimp only
    rw [hidx]

/-- Witness for C8: updating group "g1" with a payload holding one test
with id "tid" stores the materialized payload tests wholesale. -/
theorem group_tests_materialization_witness :
    groupUpdate (RawDoc.arr [grpA]) (fun _ => "u") "g1" grpPay =
      (.ok (groupOfPayload "g1"
              (materialize_tests (fun _ => "u") grpPay.tests) grpPay),
       .arr ([grpA].set 0 (groupOfPayload "g1"
              (materialize_tests (fun _ => "u") grpPay.tests) grpPay))) :=
  (group_tests_materialization (RawDoc.arr [grpA]) [grpA] "gg" (fun _ => "u")
    "g1" grpPay rfl).2.2.2 0 (by decide)

/-! ### C9 — EvolutionConfig name validation -/

/-- The raw input to `EvolutionConfigBase` construction: `none` models a
field missing from the input. `description` defaults to `None`, `rule_set`
to `{}` (`default_factory=dict`). -/
structure ConfigBaseInput where
  name : Option String
  description : Option String
  grid_simulation_code : Option String
  rule_set : Option RuleSet
deriving Repr, DecidableEq

/-- The validated `EvolutionConfigBase` model. -/
structure EvolutionConfigBase where
  name : String
  description : Option String
  grid_simulation_code : String
  rule_set : RuleSet
deriving Repr, DecidableEq

/-- pydantic validation of `EvolutionConfigBase` (models.py lines 9-15):
`name` and `grid_simulation_code` are `Field(...)` — required, with no
other constraint (no `min_length`, no content validator) — while
`description` and `rule_set` have defaults. -/
def evolutionConfigBaseValidate (input : ConfigBaseInput) :
    Except String EvolutionConfigBase :=
  match input.name with
  | none => .error "name: Field required"
  | some n =>
      match input.grid_simulation_code with
      | none => .error "grid_simulation_code: Field required"
      | some g => .ok ⟨n, input.description, g, input.rule_set.getD []⟩

/-- C9 counterexample: constructing an `EvolutionConfigBase` whose name is
the empty string succeeds — `name: str = Field(...)` only requires the
field's presence, so no validation error is raised. -/
theorem empty_name_accepted_counterexample :
    evolutionConfigBaseValidate ⟨some "", none, some "code", none⟩ =
      .ok ⟨"", none, "code", []⟩ := rfl

/-- C9 (amended): `name` is required — a missing name fails construction
with a validation error — but any string is accepted as its value,
including the empty string (the code imposes no non-emptiness check). -/
theorem name_required_but_may_be_empty (input : ConfigBaseInput) :
    (input.name = none →
      evolutionConfigBaseValidate input = .error "name: Field required") ∧
    (∀ n g, input.name = some n → input.grid_simulation_code = some g →
      evolutionConfigBaseValidate input =
        .ok ⟨n, input.description, g, input.rule_set.getD []⟩) := by
  constructor
  · intro hn
    unfold evolutionConfigBaseValidate
    rw [hn]
  · intro n g hn hg
    unfold evolutionConfigBaseValidate
    rw [hn, hg]

/-- Witness for C9: the empty string passes as a name. -/
theorem name_required_but_may_be_empty_witness :
    evolutionConfigBaseValidate ⟨some "", none, some "c", some []⟩ =
      .ok ⟨"", none, "c", []⟩ :=
  (name_required_but_may_be_empty ⟨some "", none, some "c", some []⟩).2
    "" "c" rfl rfl

/-! ### C10 — duplicate ids: create appends, get and delete hit the first -/

theorem pyOr_some_of_ne (i gen : String) (hne : i ≠ "") :
    pyOr (some i) gen = i := by
  simp [pyOr, hne]

/-- C10: `create` never checks id uniqueness, so an explicit payload id
equal to a stored record's id succeeds and appends a second record with
that id; `get` on that id then returns the earliest-inserted match, and
`delete` removes only the first match, leaving the later duplicate in the
store. -/
theorem duplicate_id_semantics (doc : RawDoc EvolutionConfig)
    (items : List EvolutionConfig) (gen i : String)
    (payload : EvolutionConfigCreate) (r : EvolutionConfig) (idx : Nat)
    (hread : repoRead doc = .ok items) (hpid : payload.id = some i)
    (hne : i ≠ "") (hr : findRecord EvolutionConfig.id i items = some r)
    (hidx : find_index EvolutionConfig.id i items = some idx) :
    configCreate doc gen payload =
      (.ok (configOfPayload i payload),
       .arr (items ++ [configOfPayload i payload])) ∧
    repoGet EvolutionConfig.id (.arr (items ++ [configOfPayload i payload])) i =
      .ok (some r) ∧
    repoDelete EvolutionConfig.id
      (.arr (items ++ [configOfPayload i payload])) i =
      (.ok true, .arr (items.eraseIdx idx ++ [configOfPayload i payload])) ∧
    configOfPayload i payload ∈ items.eraseIdx idx ++ [configOfPayload i payload] := by
  have hpy : pyOr payload.id gen = i := by
    rw [hpid]
    exact pyOr_some_of_ne i gen hne
  refine ⟨?_, ?_, ?_, by simp⟩
  · unfold configCreate
    rw [hread, hpy]
  · show Except.ok (findRecord EvolutionConfig.id i _) = _
    rw [findRecord_append_left _ hr]
  · unfold repoDelete
    dsimp only [repoRead]
    rw [find_index_append_left _ hidx]
    dsimp only
    rw [eraseIdx_append_left _ _ idx (find_index_lt_length hidx)]

/-- Witness for C10 at a concrete store: creating a duplicate of id "a"
over `cfgA`, then deleting "a", removes `cfgA` and keeps the duplicate. -/
theorem duplicate_id_semantics_witness :
    repoDelete EvolutionConfig.id
      (RawDoc.arr ([cfgA] ++ [configOfPayload "a" payDupA])) "a" =
      (.ok true, .arr ([cfgA].eraseIdx 0 ++ [configOfPayload "a" payDupA])) :=
  (duplicate_id_semantics (RawDoc.arr [cfgA]) [cfgA] "g" "a" payDupA cfgA 0
    rfl rfl (by decide) (by decide) (by decide)).2.2.1
